import Mathlib

/-!
Verification of the pricing and order-totals engine of the Save.co
phone-repair backend (Django app `product`), as a shallow embedding.

Money is modelled as `ℚ`: the source computes with Python `Decimal`
values, whose additions, subtractions, multiplications by two-place
percentages and divisions by 100 are exact at the magnitudes involved,
so every computation below mirrors the source expression for expression.

Sources embedded:
- `product/models.py`   : `RepairPrice.final_price`, `RepairPrice.total_discount`,
  `Order.calculate_totals`, `Order.total_discount`, `OrderItem.item_discount`,
  `OrderItem.set_warranty_expiry`, field validator declarations,
  `WebsiteDiscount`.
- `product/views.py`    : `RepairPriceViewSet.list` (grouping by problem),
  `RepairPriceViewSet.calculate_price` (price preview),
  `OrderViewSet.create`, `OrderViewSet.confirm`, `OrderViewSet.cancel`.
- `product/serializers.py` : `OrderItemCreateSerializer` (part-type default),
  `OrderCreateSerializer.validate_items`, `OrderCreateSerializer.validate`.
-/

namespace SaveCo

/-- Source `RepairPrice.PART_TYPE_CHOICES` (models.py 71-74). -/
inductive PartType where
  | original
  | duplicate
deriving DecidableEq, BEq, Repr

/-- The string stored in the `part_type` column for each choice. -/
def partTypeStr : PartType → String
  | .original => "original"
  | .duplicate => "duplicate"

/-- Source `Order.STATUS_CHOICES` (models.py 150-157). -/
inductive OrderStatus where
  | pending
  | confirmed
  | in_progress
  | completed
  | cancelled
  | refunded
deriving DecidableEq, BEq, Repr

/-- The string stored in the `status` column for each choice. -/
def orderStatusStr : OrderStatus → String
  | .pending => "pending"
  | .confirmed => "confirmed"
  | .in_progress => "in_progress"
  | .completed => "completed"
  | .cancelled => "cancelled"
  | .refunded => "refunded"

/-- Source `Order.PAYMENT_STATUS_CHOICES` (models.py 159-164). -/
inductive PaymentStatus where
  | pending
  | paid
  | failed
  | refunded
deriving DecidableEq, BEq, Repr

/-- A `PhoneModel` row, restricted to the fields the pricing engine reads
(models.py 27-44). -/
structure PhoneModel where
  id : Nat
  name : String
  is_active : Bool
deriving DecidableEq, Repr

/-- A `RepairPrice` row (models.py 69-128), with the referenced problem's
name denormalised in (`select_related('problem')` in every caller). -/
structure RepairPrice where
  phone_model_id : Nat
  problem_id : Nat
  problem_name : String
  part_type : PartType
  base_price : ℚ
  discount_percentage : ℚ
  discount_amount : ℚ
  in_stock : Bool
  warranty_days : Nat
  is_active : Bool
deriving DecidableEq, Repr

/-- Source `RepairPrice.final_price` (models.py 133-140):
start from `base_price`, subtract the percentage discount only when the
percentage is positive, subtract the fixed discount, clamp at zero. -/
def RepairPrice.final_price (rp : RepairPrice) : ℚ :=
  let price := rp.base_price
  let price := if rp.discount_percentage > 0
    then price - price * rp.discount_percentage / 100
    else price
  let price := price - rp.discount_amount
  max price 0

/-- Source `RepairPrice.total_discount` (models.py 142-145). -/
def RepairPrice.total_discount (rp : RepairPrice) : ℚ :=
  rp.base_price - rp.final_price

/-- A `WebsiteDiscount` row (models.py 351-368).  Note: unlike
`RepairPrice` and `Order`, its two monetary fields declare no validators. -/
structure WebsiteDiscount where
  percentage : ℚ
  amount : ℚ
  is_active : Bool
deriving DecidableEq, Repr

/-- An `OrderItem` row (models.py 285-329): the frozen snapshot of one
priced repair inside an order.  Timestamps are modelled as `Nat` days. -/
structure OrderItem where
  problem_id : Nat
  problem_name : String
  part_type : PartType
  base_price : ℚ
  discount_percentage : ℚ
  discount_amount : ℚ
  final_price : ℚ
  warranty_days : Nat
  warranty_expires_at : Option Nat := none
deriving DecidableEq, Repr

/-- Source `OrderItem.item_discount` (models.py 339-342). -/
def OrderItem.item_discount (it : OrderItem) : ℚ :=
  it.base_price - it.final_price

/-- An `Order` row (models.py 148-246), restricted to the fields the
claims touch.  `confirmed_at` is a `Nat` timestamp. -/
structure Order where
  phone_model_id : Nat
  customer_name : String
  customer_email : String
  customer_phone : String
  subtotal : ℚ
  item_discount : ℚ
  website_discount_percentage : ℚ
  website_discount_amount : ℚ
  total_amount : ℚ
  status : OrderStatus
  payment_status : PaymentStatus
  notes : String
  confirmed_at : Option Nat := none
  order_items : List OrderItem
deriving DecidableEq, Repr

/-- Source `OrderItem.set_warranty_expiry` (models.py 344-348): only once the
parent order carries a confirmation timestamp is the expiry set. -/
def OrderItem.set_warranty_expiry (confirmedAt : Option Nat) (it : OrderItem) : OrderItem :=
  match confirmedAt with
  | some t => { it with warranty_expires_at := some (t + it.warranty_days) }
  | none => it

/-- One line of the price breakdown: the two figures the totals arithmetic
reads from each item. -/
structure LineBreakdown where
  base_price : ℚ
  final_price : ℚ
deriving DecidableEq, Repr

/-- The six figures produced by the order-totals arithmetic. -/
structure OrderTotals where
  subtotal : ℚ
  item_discount : ℚ
  price_after_items : ℚ
  website_discount : ℚ
  total_amount : ℚ
  total_discount : ℚ
deriving DecidableEq, Repr

/-- The totals arithmetic of `RepairPriceViewSet.calculate_price`
(views.py 164-211): subtotal and item discount summed over the lines,
then the website discount (percentage of the price after item discounts
plus the fixed amount, with no positivity guard on the percentage at this
call site), the clamped total, and the overall discount. -/
def computeOrderTotals (lines : List LineBreakdown) (pct amt : ℚ) : OrderTotals :=
  let subtotal := (lines.map (fun l => l.base_price)).sum
  let item_discount := (lines.map (fun l => l.base_price - l.final_price)).sum
  let price_after_items := subtotal - item_discount
  let website_discount := price_after_items * (pct / 100) + amt
  let total_amount := max (price_after_items - website_discount) 0
  { subtotal := subtotal
    item_discount := item_discount
    price_after_items := price_after_items
    website_discount := website_discount
    total_amount := total_amount
    total_discount := subtotal - total_amount }

/-- Source `Order.calculate_totals` (models.py 256-277): recomputes subtotal,
item discount and total from the order's items; the percentage part of
the website discount is added only when the stored percentage is
positive.  Returns the three stored figures. -/
def Order.calculate_totals (items : List OrderItem) (pct amt : ℚ) : ℚ × ℚ × ℚ :=
  let subtotal := (items.map (fun it => it.base_price)).sum
  let item_discount := (items.map OrderItem.item_discount).sum
  let price_after_items := subtotal - item_discount
  let website_discount := (if pct > 0 then price_after_items * (pct / 100) else 0) + amt
  (subtotal, item_discount, max (price_after_items - website_discount) 0)

/-- Source `Order.total_discount` (models.py 279-282). -/
def Order.total_discount (o : Order) : ℚ :=
  o.subtotal - o.total_amount

/-- The lookup every pricing call site performs
(`RepairPrice.objects.get(phone_model=..., problem_id=..., part_type=...,
is_active=True)`; the row is unique by the model's `unique_together`). -/
def lookupRepairPrice (catalog : List RepairPrice) (modelId problemId : Nat)
    (pt : PartType) : Option RepairPrice :=
  catalog.find? fun rp =>
    rp.phone_model_id == modelId && rp.problem_id == problemId &&
      rp.part_type == pt && rp.is_active

/-- Source `PhoneModel.objects.get(id=..., is_active=True)` as used by the
preview and by `OrderCreateSerializer.validate`. -/
def findActiveModel (models : List PhoneModel) (modelId : Nat) : Option PhoneModel :=
  models.find? fun m => m.id == modelId && m.is_active

/-- Source `WebsiteDiscount.objects.filter(is_active=True).first()`
(views.py 159). -/
def activeWebsiteDiscount (discounts : List WebsiteDiscount) : Option WebsiteDiscount :=
  discounts.find? fun d => d.is_active

/-- One selection in a request body: `{"problem_id": ..., "part_type": ...}`,
the part type being optional at the public interface. -/
structure RequestItem where
  problem_id : Nat
  part_type : Option PartType
deriving DecidableEq, Repr

/-- The body of a `calculate_price` request (views.py 129-147).  The two
discount-override fields are carried but, in the source, the lines that
would read them are commented out. -/
structure PriceRequest where
  phone_model_id : Nat
  items : List RequestItem
  website_discount_percentage : Option ℚ := none
  website_discount_amount : Option ℚ := none
deriving DecidableEq, Repr

/-- One entry of the preview's `items_breakdown` (views.py 187-195). -/
structure ItemBreakdown where
  problem_id : Nat
  problem_name : String
  part_type : PartType
  base_price : ℚ
  discount : ℚ
  final_price : ℚ
  warranty_days : Nat
deriving DecidableEq, Repr

/-- The preview response (views.py 213-225). -/
structure PriceResponse where
  website_discount_percentage : ℚ
  website_discount_amount : ℚ
  totals : OrderTotals
  items : List ItemBreakdown
deriving DecidableEq, Repr

/-- The per-item loop of `calculate_price` (views.py 169-201): default the
part type to `original`, look the active option up, fail on a miss, record
the breakdown.  The in-stock flag is never consulted here. -/
def previewItems (catalog : List RepairPrice) (modelId : Nat) :
    List RequestItem → Except String (List ItemBreakdown)
  | [] => .ok []
  | item :: rest =>
    let pt := item.part_type.getD .original
    match lookupRepairPrice catalog modelId item.problem_id pt with
    | none =>
      .error ("Invalid repair option for problem ID " ++ toString item.problem_id ++
        " with part type " ++ partTypeStr pt)
    | some rp =>
      match previewItems catalog modelId rest with
      | .error e => .error e
      | .ok bs =>
        .ok ({ problem_id := item.problem_id
               problem_name := rp.problem_name
               part_type := pt
               base_price := rp.base_price
               discount := rp.base_price - rp.final_price
               final_price := rp.final_price
               warranty_days := rp.warranty_days } :: bs)

/-- The persistent state the pricing engine reads and writes. -/
structure Store where
  models : List PhoneModel
  catalog : List RepairPrice
  discounts : List WebsiteDiscount
  orders : List Order
deriving DecidableEq, Repr

/-- Source `RepairPriceViewSet.calculate_price` (views.py 129-225): reject an
empty selection, resolve the active phone model, take the site discount
from the first active `WebsiteDiscount` row (the request's override
fields are ignored: the lines reading them are commented out in the
source), price every selection, and assemble the response. -/
def calculate_price (s : Store) (req : PriceRequest) : Except String PriceResponse :=
  if req.items.isEmpty then .error "items list is required"
  else
    match findActiveModel s.models req.phone_model_id with
    | none => .error "Invalid or inactive phone model"
    | some _ =>
      let pct := match activeWebsiteDiscount s.discounts with
        | some d => d.percentage
        | none => 0
      let amt := match activeWebsiteDiscount s.discounts with
        | some d => d.amount
        | none => 0
      match previewItems s.catalog req.phone_model_id req.items with
      | .error e => .error e
      | .ok bs =>
        .ok { website_discount_percentage := pct
              website_discount_amount := amt
              totals := computeOrderTotals
                (bs.map fun b => { base_price := b.base_price, final_price := b.final_price })
                pct amt
              items := bs }

/-- The body of an order-creation request (views.py 269-283,
serializers.py 101-121). -/
structure CreateRequest where
  phone_model_id : Nat
  customer_name : String
  customer_email : String
  customer_phone : String
  items : List RequestItem
  notes : Option String := none
  website_discount_percentage : Option ℚ := none
  website_discount_amount : Option ℚ := none
deriving DecidableEq, Repr

/-- The out-of-stock message raised by `OrderCreateSerializer.validate`
(serializers.py 145-148). -/
def stockErrorMsg (problemName : String) (pt : PartType) : String :=
  "Part not in stock for " ++ problemName ++ " (" ++ partTypeStr pt ++ ")"

/-- The per-item half of `OrderCreateSerializer.validate`
(serializers.py 136-152): each selection must resolve to an active
option, and that option must be in stock. -/
def validateItemsStock (catalog : List RepairPrice) (modelId : Nat) :
    List RequestItem → Option String
  | [] => none
  | item :: rest =>
    let pt := item.part_type.getD .original
    match lookupRepairPrice catalog modelId item.problem_id pt with
    | none =>
      some ("Invalid repair option for problem ID " ++ toString item.problem_id ++
        " with part type " ++ partTypeStr pt)
    | some rp =>
      if rp.in_stock then validateItemsStock catalog modelId rest
      else some (stockErrorMsg rp.problem_name pt)

/-- Source `OrderCreateSerializer` validation (serializers.py 101-154): the
optional discount override is bounds-checked by its field declaration,
`validate_items` rejects an empty selection, then `validate` resolves the
phone model and every selection. -/
def OrderCreateSerializer.validate (s : Store) (req : CreateRequest) : Option String :=
  if req.items.isEmpty then
    some "At least one repair item is required"
  else if req.website_discount_percentage.getD 0 < 0 ∨
      100 < req.website_discount_percentage.getD 0 then
    some "website_discount_percentage out of range"
  else if req.website_discount_amount.getD 0 < 0 then
    some "website_discount_amount out of range"
  else
    match findActiveModel s.models req.phone_model_id with
    | none => some "Invalid or inactive phone model"
    | some _ => validateItemsStock s.catalog req.phone_model_id req.items

/-- The item-creation loop of `OrderViewSet.create` (views.py 308-326):
re-fetch each option and copy its figures verbatim into an `OrderItem`
snapshot. -/
def buildOrderItems (catalog : List RepairPrice) (modelId : Nat) :
    List RequestItem → Except String (List OrderItem)
  | [] => .ok []
  | item :: rest =>
    let pt := item.part_type.getD .original
    match lookupRepairPrice catalog modelId item.problem_id pt with
    | none => .error "RepairPrice matching query does not exist"
    | some rp =>
      match buildOrderItems catalog modelId rest with
      | .error e => .error e
      | .ok its =>
        .ok ({ problem_id := item.problem_id
               problem_name := rp.problem_name
               part_type := pt
               base_price := rp.base_price
               discount_percentage := rp.discount_percentage
               discount_amount := rp.discount_amount
               final_price := rp.final_price
               warranty_days := rp.warranty_days
               warranty_expires_at := none } :: its)

/-- Source `OrderViewSet.create` (views.py 267-334): validate the request
through `OrderCreateSerializer`, snapshot every selection into an
`OrderItem`, take the website discount from the request (defaulting to
zero — the active `WebsiteDiscount` row is never consulted here), run
`Order.calculate_totals`, and persist the order atomically; on any
failure nothing is written. -/
def OrderViewSet.create (s : Store) (req : CreateRequest) : Except String Store :=
  match OrderCreateSerializer.validate s req with
  | some e => .error e
  | none =>
    match buildOrderItems s.catalog req.phone_model_id req.items with
    | .error e => .error e
    | .ok items =>
      let pct := req.website_discount_percentage.getD 0
      let amt := req.website_discount_amount.getD 0
      let totals := Order.calculate_totals items pct amt
      let order : Order :=
        { phone_model_id := req.phone_model_id
          customer_name := req.customer_name
          customer_email := req.customer_email
          customer_phone := req.customer_phone
          subtotal := totals.1
          item_discount := totals.2.1
          website_discount_percentage := pct
          website_discount_amount := amt
          total_amount := totals.2.2
          status := .pending
          payment_status := .pending
          notes := req.notes.getD ""
          confirmed_at := none
          order_items := items }
      .ok { s with orders := s.orders ++ [order] }

/-- Mutate every catalog row through `f`, leaving all other tables
untouched — an administrative edit of `RepairPrice` price or discount
fields after orders exist. -/
def mutateCatalog (s : Store) (f : RepairPrice → RepairPrice) : Store :=
  { s with catalog := s.catalog.map f }

/-- Source `OrderViewSet.confirm` (views.py 336-358): only a pending order can
be confirmed; on success the status becomes `confirmed`, the
confirmation timestamp is recorded and every item's warranty expiry is
set.  The returned order is the stored one; the second component is the
error, `none` on success. -/
def OrderViewSet.confirm (o : Order) (now : Nat) : Order × Option String :=
  if o.status ≠ .pending then
    (o, some "Only pending orders can be confirmed")
  else
    let o' : Order := { o with status := .confirmed, confirmed_at := some now }
    ({ o' with order_items := o'.order_items.map (OrderItem.set_warranty_expiry o'.confirmed_at) },
      none)

/-- Source `OrderViewSet.cancel` (views.py 360-375): completed, cancelled and
refunded orders cannot be cancelled; otherwise the status becomes
`cancelled` and the payment status is untouched. -/
def OrderViewSet.cancel (o : Order) : Order × Option String :=
  if o.status = .completed ∨ o.status = .cancelled ∨ o.status = .refunded then
    (o, some ("Cannot cancel order with status: " ++ orderStatusStr o.status))
  else
    ({ o with status := .cancelled }, none)

/-- One group of the grouped repair-price listing (views.py 111-127):
the problem's identity plus one slot per part type, both initially null. -/
structure ProblemGroup where
  problem_id : Nat
  problem_name : String
  original : Option RepairPrice
  duplicate : Option RepairPrice
deriving DecidableEq, Repr

/-- Source `problems_dict[problem_id][repair_price.part_type] = ...`
(views.py 125): store the option in the slot named by its part type. -/
def setSlot (g : ProblemGroup) (rp : RepairPrice) : ProblemGroup :=
  match rp.part_type with
  | .original => { g with original := some rp }
  | .duplicate => { g with duplicate := some rp }

/-- The fresh group an unseen problem's option creates (views.py
115-124): identity fields from the problem, both slots null, then the
arriving option stored in its slot. -/
def newGroup (rp : RepairPrice) : ProblemGroup :=
  setSlot { problem_id := rp.problem_id
            problem_name := rp.problem_name
            original := none
            duplicate := none } rp

/-- One iteration of the grouping loop (views.py 113-125): insertion into
a Python dict keyed by problem id — update the existing group in place,
or append a fresh group (slots null) at the end, preserving insertion
order. -/
def insertOption (gs : List ProblemGroup) (rp : RepairPrice) : List ProblemGroup :=
  if gs.any fun g => g.problem_id == rp.problem_id then
    gs.map fun g =>
      if g.problem_id == rp.problem_id then setSlot g rp else g
  else
    gs ++ [newGroup rp]

/-- The grouping of `RepairPriceViewSet.list` (views.py 111-127):
`list(problems_dict.values())` after the insertion loop. -/
def groupByProblem (options : List RepairPrice) : List ProblemGroup :=
  options.foldl insertOption []

/-- Modelled from the spec: the problem ids of `l` in order of first
appearance, skipping those already in `seen`. -/
def firstAppearance (seen : List Nat) : List Nat → List Nat
  | [] => []
  | x :: xs =>
    if x ∈ seen then firstAppearance seen xs
    else x :: firstAppearance (seen ++ [x]) xs

/-- The first option of each problem not yet in `seen`, in encounter
order: the options whose arrival creates a fresh group. -/
def firstOccurrences (seen : List Nat) : List RepairPrice → List RepairPrice
  | [] => []
  | o :: rest =>
    if o.problem_id ∈ seen then firstOccurrences seen rest
    else o :: firstOccurrences (seen ++ [o.problem_id]) rest

/-- Left-biased choice on optional options. -/
def oor (a b : Option RepairPrice) : Option RepairPrice :=
  match a with
  | some x => some x
  | none => b

/-- The last option of `l` keyed `(p, pt)` — the one a dict slot holds
after repeated assignment. -/
def lastMatch (p : Nat) (pt : PartType) : List RepairPrice → Option RepairPrice
  | [] => none
  | o :: rest =>
    if o.problem_id = p ∧ o.part_type = pt then oor (lastMatch p pt rest) (some o)
    else lastMatch p pt rest

/-- How a pre-existing group looks after the remaining options are
processed: each slot is overwritten by the last later match, if any. -/
def updGroup (opts : List RepairPrice) (g : ProblemGroup) : ProblemGroup :=
  { g with
    original := oor (lastMatch g.problem_id .original opts) g.original
    duplicate := oor (lastMatch g.problem_id .duplicate opts) g.duplicate }

/-- Modelled from the spec: the group a problem's first option creates,
with each part-type slot holding the last matching option of the whole
input, or null when that part type is absent. -/
def mkGroup (opts : List RepairPrice) (o : RepairPrice) : ProblemGroup :=
  { problem_id := o.problem_id
    problem_name := o.problem_name
    original := lastMatch o.problem_id .original opts
    duplicate := lastMatch o.problem_id .duplicate opts }

/-- Source `MinValueValidator(lo)`: passes iff `lo ≤ v`. -/
def minValueValidator (lo v : ℚ) : Bool := decide (lo ≤ v)

/-- Source `MaxValueValidator(hi)`: passes iff `v ≤ hi`. -/
def maxValueValidator (hi v : ℚ) : Bool := decide (v ≤ hi)

/-- A value passes a field's validator list iff every validator accepts it. -/
def runValidators (vs : List (ℚ → Bool)) (v : ℚ) : Bool :=
  vs.all fun f => f v

/-- Validators declared on `RepairPrice.discount_percentage`
(models.py 94-100). -/
def RepairPrice.discount_percentage_validators : List (ℚ → Bool) :=
  [minValueValidator 0, maxValueValidator 100]

/-- Validators declared on `RepairPrice.discount_amount`
(models.py 101-107). -/
def RepairPrice.discount_amount_validators : List (ℚ → Bool) :=
  [minValueValidator 0]

/-- Validators declared on `Order.website_discount_percentage`
(models.py 192-198). -/
def Order.website_discount_percentage_validators : List (ℚ → Bool) :=
  [minValueValidator 0, maxValueValidator 100]

/-- Validators declared on `WebsiteDiscount.percentage`
(models.py 359-364): none. -/
def WebsiteDiscount.percentage_validators : List (ℚ → Bool) := []

/-- Validators declared on `WebsiteDiscount.amount`
(models.py 353-358): none. -/
def WebsiteDiscount.amount_validators : List (ℚ → Bool) := []

/-- Whether storing a `WebsiteDiscount` with these figures passes the
model's field validation (the `WebsiteDiscountSerializer`, a
`ModelSerializer`, adds nothing beyond the model's declarations). -/
def websiteDiscountAccepted (pct amt : ℚ) : Bool :=
  runValidators WebsiteDiscount.percentage_validators pct &&
    runValidators WebsiteDiscount.amount_validators amt

/-- Replace an omitted part type by the default the interface applies. -/
def defaultPartType (i : RequestItem) : RequestItem :=
  { i with part_type := some (i.part_type.getD .original) }

/-- The breakdown line a `RepairPrice` row contributes to the totals. -/
def toLine (r : RepairPrice) : LineBreakdown :=
  { base_price := r.base_price, final_price := r.final_price }

/-- A list of breakdown lines with one distinguished row `r` in context. -/
def lineContext (pre suf : List RepairPrice) (r : RepairPrice) : List LineBreakdown :=
  pre.map toLine ++ toLine r :: suf.map toLine

/-- An order-creation request selecting the single option `(pid, pt)`. -/
def stockCreateReq (mid pid : Nat) (pt : PartType) : CreateRequest :=
  { phone_model_id := mid
    customer_name := "c"
    customer_email := "e"
    customer_phone := "p"
    items := [{ problem_id := pid, part_type := some pt }] }

/-- Concrete fixture: an active phone model. -/
def modelEx : PhoneModel := { id := 1, name := "iPhone", is_active := true }

/-- Concrete fixture: an active, in-stock option with no item discount. -/
def rpEx : RepairPrice :=
  { phone_model_id := 1, problem_id := 2, problem_name := "Screen"
    part_type := .original, base_price := 100, discount_percentage := 0
    discount_amount := 0, in_stock := true, warranty_days := 90, is_active := true }

/-- Concrete fixture: a second active option, out of stock. -/
def rpOut3 : RepairPrice :=
  { phone_model_id := 1, problem_id := 3, problem_name := "Battery"
    part_type := .original, base_price := 50, discount_percentage := 0
    discount_amount := 0, in_stock := false, warranty_days := 30, is_active := true }

/-- Concrete fixture: discounts exceeding the base price (Scenario C). -/
def rpC2 : RepairPrice :=
  { phone_model_id := 1, problem_id := 1, problem_name := "Battery"
    part_type := .original, base_price := 20, discount_percentage := 100
    discount_amount := 50, in_stock := true, warranty_days := 90, is_active := true }

/-- Concrete fixture for the monotonicity witness. -/
def rpC7 : RepairPrice :=
  { phone_model_id := 1, problem_id := 3, problem_name := "Screen"
    part_type := .original, base_price := 100, discount_percentage := 10
    discount_amount := 5, in_stock := true, warranty_days := 90, is_active := true }

/-- Concrete fixture: a store with one model, one in-stock option and an
active 10% site discount. -/
def s3 : Store := { models := [modelEx], catalog := [rpEx]
                    discounts := [{ percentage := 10, amount := 0, is_active := true }]
                    orders := [] }

/-- A preview request against `s3` carrying a 5% discount override. -/
def preq3 : PriceRequest :=
  { phone_model_id := 1, items := [{ problem_id := 2, part_type := some .original }]
    website_discount_percentage := some 5, website_discount_amount := some 0 }

/-- An order-creation request against `s3` with no discount override. -/
def creq3 : CreateRequest := stockCreateReq 1 2 .original

/-- The order `creq3` creates against `s3`. -/
def ord3 : Order :=
  { phone_model_id := 1, customer_name := "c", customer_email := "e"
    customer_phone := "p", subtotal := 100, item_discount := 0
    website_discount_percentage := 0, website_discount_amount := 0
    total_amount := 100, status := .pending, payment_status := .pending
    notes := "", confirmed_at := none
    order_items := [{ problem_id := 2, problem_name := "Screen", part_type := .original
                      base_price := 100, discount_percentage := 0, discount_amount := 0
                      final_price := 100, warranty_days := 90, warranty_expires_at := none }] }

/-- The store after `creq3` is created against `s3`. -/
def s3' : Store := { s3 with orders := [ord3] }

/-- Concrete fixture: a store with one in-stock and one out-of-stock
option. -/
def s6 : Store := { models := [modelEx], catalog := [rpEx, rpOut3], discounts := [], orders := [] }

/-- A two-item selection against `s6` whose second option is out of
stock. -/
def req6 : CreateRequest :=
  { phone_model_id := 1
    customer_name := "c"
    customer_email := "e"
    customer_phone := "p"
    items := [{ problem_id := 2, part_type := some .original },
              { problem_id := 3, part_type := some .original }] }

/-- Concrete fixture: an order in the cancelled state (Scenario E). -/
def ordCancelled : Order := { ord3 with status := .cancelled }

/-- Concrete fixture for the grouping witness: two problems, problem 1
appearing twice with both part types, problem 2 only as duplicate. -/
def optsC8 : List RepairPrice :=
  [{ phone_model_id := 1, problem_id := 1, problem_name := "Screen"
     part_type := .original, base_price := 100, discount_percentage := 0
     discount_amount := 0, in_stock := true, warranty_days := 90, is_active := true },
   { phone_model_id := 1, problem_id := 2, problem_name := "Battery"
     part_type := .duplicate, base_price := 50, discount_percentage := 0
     discount_amount := 0, in_stock := true, warranty_days := 90, is_active := true },
   { phone_model_id := 1, problem_id := 1, problem_name := "Screen"
     part_type := .duplicate, base_price := 80, discount_percentage := 0
     discount_amount := 0, in_stock := true, warranty_days := 90, is_active := true }]

/-! ## Theorems -/

/-- With a non-negative percentage, the guarded discount chain of
`RepairPrice.final_price` collapses to the closed formula. -/
theorem final_price_formula (rp : RepairPrice) (hp : 0 ≤ rp.discount_percentage) :
    rp.final_price
      = max (rp.base_price - rp.base_price * rp.discount_percentage / 100 - rp.discount_amount) 0 := by
  by_cases h : rp.discount_percentage > 0
  · simp [RepairPrice.final_price, h]
  · have h0 : rp.discount_percentage = 0 := le_antisymm (not_lt.mp h) hp
    simp [RepairPrice.final_price, h, h0]

/-- Claim C2: a priced option with non-negative base price, percentage in
[0,100] and non-negative fixed discount has derived final price
max(0, base − base×pct/100 − amount) and total discount base − final;
the final price is never negative, and the clamped Scenario C instance
(base 20, percentage 100, fixed 50) yields exactly 0. -/
theorem claim_C2 (rp : RepairPrice) (hb : 0 ≤ rp.base_price)
    (hp0 : 0 ≤ rp.discount_percentage) (hp1 : rp.discount_percentage ≤ 100)
    (ha : 0 ≤ rp.discount_amount) :
    rp.final_price
        = max 0 (rp.base_price - rp.base_price * rp.discount_percentage / 100 - rp.discount_amount)
      ∧ rp.total_discount = rp.base_price - rp.final_price
      ∧ 0 ≤ rp.final_price
      ∧ rpC2.final_price = 0 := by
  refine ⟨?_, rfl, ?_, ?_⟩
  · rw [final_price_formula rp hp0, max_comm]
  · rw [final_price_formula rp hp0]
    exact le_max_right _ _
  · norm_num [rpC2, RepairPrice.final_price]

/-- Witness for C2 at the Scenario C option. -/
theorem claim_C2_witness :
    rpC2.final_price
        = max 0 (rpC2.base_price - rpC2.base_price * rpC2.discount_percentage / 100 - rpC2.discount_amount)
      ∧ rpC2.total_discount = rpC2.base_price - rpC2.final_price
      ∧ 0 ≤ rpC2.final_price
      ∧ rpC2.final_price = 0 :=
  claim_C2 rpC2 (by norm_num [rpC2]) (by norm_num [rpC2]) (by norm_num [rpC2])
    (by norm_num [rpC2])

/-- Claim C1: the order-totals computation follows the six steps in order
on exact decimals; `Order.calculate_totals` agrees with it whenever the
stored percentage is non-negative; and the Scenario B input (bases
100+50, finals 85+40, 5% + 0 site discount) produces exactly
(150, 25, 125, 6.25, 118.75, 31.25). -/
theorem claim_C1 (lines : List LineBreakdown) (pct amt : ℚ) (t : OrderTotals)
    (ht : t = computeOrderTotals lines pct amt) :
    t.subtotal = (lines.map fun l => l.base_price).sum
      ∧ t.item_discount = (lines.map fun l => l.base_price - l.final_price).sum
      ∧ t.price_after_items = t.subtotal - t.item_discount
      ∧ t.website_discount = t.price_after_items * (pct / 100) + amt
      ∧ t.total_amount = max 0 (t.price_after_items - t.website_discount)
      ∧ t.total_discount = t.subtotal - t.total_amount
      ∧ (0 ≤ pct → ∀ items : List OrderItem,
          Order.calculate_totals items pct amt =
            ((computeOrderTotals (items.map fun it =>
                { base_price := it.base_price, final_price := it.final_price }) pct amt).subtotal,
             (computeOrderTotals (items.map fun it =>
                { base_price := it.base_price, final_price := it.final_price }) pct amt).item_discount,
             (computeOrderTotals (items.map fun it =>
                { base_price := it.base_price, final_price := it.final_price }) pct amt).total_amount))
      ∧ computeOrderTotals [⟨100, 85⟩, ⟨50, 40⟩] 5 0
          = { subtotal := 150, item_discount := 25, price_after_items := 125
              website_discount := 6.25, total_amount := 118.75, total_discount := 31.25 } := by
  subst ht
  refine ⟨rfl, rfl, rfl, rfl, max_comm _ _, rfl, ?_, ?_⟩
  · intro hq items
    unfold Order.calculate_totals computeOrderTotals OrderItem.item_discount
    simp only [List.map_map]
    by_cases hpos : pct > 0
    · rw [if_pos hpos]
      rfl
    · have h0 : pct = 0 := le_antisymm (not_lt.mp hpos) hq
      rw [if_neg hpos, h0]
      norm_num
      exact ⟨rfl, rfl, rfl⟩
  · norm_num [computeOrderTotals]

/-- Witness for C1 at the Scenario B input. -/
theorem claim_C1_witness :
    ({ subtotal := 150, item_discount := 25, price_after_items := 125
       website_discount := 6.25, total_amount := 118.75, total_discount := 31.25 } :
        OrderTotals).subtotal
        = (([⟨100, 85⟩, ⟨50, 40⟩] : List LineBreakdown).map fun l => l.base_price).sum
      ∧ computeOrderTotals [⟨100, 85⟩, ⟨50, 40⟩] 5 0
          = { subtotal := 150, item_discount := 25, price_after_items := 125
              website_discount := 6.25, total_amount := 118.75, total_discount := 31.25 } := by
  have h := claim_C1 [⟨100, 85⟩, ⟨50, 40⟩] 5 0
    { subtotal := 150, item_discount := 25, price_after_items := 125
      website_discount := 6.25, total_amount := 118.75, total_discount := 31.25 }
    (by norm_num [computeOrderTotals])
  exact ⟨h.1, h.2.2.2.2.2.2.2⟩

/-- Claim C5: confirm succeeds exactly from `pending` (setting the
status and the confirmation timestamp) and otherwise fails leaving the
order unchanged; cancel fails exactly from completed/cancelled/refunded,
leaving the order unchanged, and otherwise sets `cancelled`; confirming
a cancelled order fails and its status stays `cancelled`. -/
theorem claim_C5 (o : Order) (t : Nat) :
    ((OrderViewSet.confirm o t).2 = none ↔ o.status = .pending)
      ∧ (o.status = .pending →
          (OrderViewSet.confirm o t).1.status = .confirmed
            ∧ (OrderViewSet.confirm o t).1.confirmed_at = some t)
      ∧ (o.status ≠ .pending →
          (OrderViewSet.confirm o t).1 = o ∧ (OrderViewSet.confirm o t).2 ≠ none)
      ∧ ((OrderViewSet.cancel o).2 ≠ none ↔
          o.status = .completed ∨ o.status = .cancelled ∨ o.status = .refunded)
      ∧ (o.status = .completed ∨ o.status = .cancelled ∨ o.status = .refunded →
          (OrderViewSet.cancel o).1 = o)
      ∧ (¬(o.status = .completed ∨ o.status = .cancelled ∨ o.status = .refunded) →
          (OrderViewSet.cancel o).1.status = .cancelled
            ∧ (OrderViewSet.cancel o).1.payment_status = o.payment_status)
      ∧ (o.status = .cancelled →
          (OrderViewSet.confirm o t).2 ≠ none
            ∧ (OrderViewSet.confirm o t).1.status = .cancelled) := by
  by_cases hp : o.status = .pending
  · have hc : ¬(o.status = .completed ∨ o.status = .cancelled ∨ o.status = .refunded) := by
      simp [hp]
    refine ⟨?_, ?_, ?_, ?_, ?_, ?_, ?_⟩ <;>
      simp [OrderViewSet.confirm, OrderViewSet.cancel, hp, hc]
  · refine ⟨?_, ?_, ?_, ?_, ?_, ?_, ?_⟩
    · simp [OrderViewSet.confirm, hp]
    · intro h
      exact absurd h hp
    · intro _
      constructor <;> simp [OrderViewSet.confirm, hp]
    · by_cases hc : o.status = .completed ∨ o.status = .cancelled ∨ o.status = .refunded <;>
        simp [OrderViewSet.cancel, hc]
    · intro hc
      simp [OrderViewSet.cancel, hc]
    · intro hc
      simp [OrderViewSet.cancel, hc]
    · intro hcan
      constructor <;> simp [OrderViewSet.confirm, hp, hcan]

/-- Witness for C5: Scenario E at a concrete cancelled order. -/
theorem claim_C5_witness :
    (OrderViewSet.confirm ordCancelled 7).2 ≠ none
      ∧ (OrderViewSet.confirm ordCancelled 7).1.status = .cancelled :=
  (claim_C5 ordCancelled 7).2.2.2.2.2.2 rfl

/-- The claim as written is false: `WebsiteDiscount` declares no
validators, so a percentage of 500 with a fixed amount of −5 passes the
model's field validation while violating the claimed bounds. -/
theorem claim_C9_counterexample :
    websiteDiscountAccepted 500 (-5) = true
      ∧ ¬(((0:ℚ) ≤ 500 ∧ (500:ℚ) ≤ 100) ∧ (0:ℚ) ≤ -5) :=
  ⟨rfl, by norm_num⟩

/-- Claim C9 (amended): `WebsiteDiscount` declares no range validators on
percentage or amount, so any values whatsoever are accepted for storage;
the [0,100] / ≥0 bounds are enforced only on `RepairPrice`'s and
`Order`'s discount fields. -/
theorem claim_C9 :
    (∀ pct amt : ℚ, websiteDiscountAccepted pct amt = true)
      ∧ (∀ p : ℚ,
          runValidators RepairPrice.discount_percentage_validators p = true ↔ 0 ≤ p ∧ p ≤ 100)
      ∧ (∀ a : ℚ, runValidators RepairPrice.discount_amount_validators a = true ↔ 0 ≤ a)
      ∧ (∀ p : ℚ,
          runValidators Order.website_discount_percentage_validators p = true ↔ 0 ≤ p ∧ p ≤ 100) := by
  refine ⟨fun _ _ => rfl, fun p => ?_, fun a => ?_, fun p => ?_⟩ <;>
    simp [runValidators, RepairPrice.discount_percentage_validators,
      RepairPrice.discount_amount_validators, Order.website_discount_percentage_validators,
      minValueValidator, maxValueValidator]

/-- Normalising omitted part types does not change the preview loop. -/
theorem previewItems_defaultPartType (catalog : List RepairPrice) (mid : Nat)
    (items : List RequestItem) :
    previewItems catalog mid (items.map defaultPartType) = previewItems catalog mid items := by
  induction items with
  | nil => rfl
  | cons i rest ih =>
    simp only [List.map_cons, previewItems, defaultPartType, Option.getD_some, ih]

/-- Normalising omitted part types does not change stock validation. -/
theorem validateItemsStock_defaultPartType (catalog : List RepairPrice) (mid : Nat)
    (items : List RequestItem) :
    validateItemsStock catalog mid (items.map defaultPartType)
      = validateItemsStock catalog mid items := by
  induction items with
  | nil => rfl
  | cons i rest ih =>
    simp only [List.map_cons, validateItemsStock, defaultPartType, Option.getD_some, ih]

/-- Normalising omitted part types does not change the snapshot loop. -/
theorem buildOrderItems_defaultPartType (catalog : List RepairPrice) (mid : Nat)
    (items : List RequestItem) :
    buildOrderItems catalog mid (items.map defaultPartType)
      = buildOrderItems catalog mid items := by
  induction items with
  | nil => rfl
  | cons i rest ih =>
    simp only [List.map_cons, buildOrderItems, defaultPartType, Option.getD_some, ih]

/-- Mapping the default over a selection preserves emptiness. -/
theorem isEmpty_map_defaultPartType (items : List RequestItem) :
    (items.map defaultPartType).isEmpty = items.isEmpty := by
  cases items <;> rfl

/-- Claim C10: a selection item that omits its part type is not rejected:
price preview, order validation and order creation all behave exactly as
if the part type had been given as `original`. -/
theorem claim_C10 (s : Store) (preq : PriceRequest) (creq : CreateRequest) :
    calculate_price s { preq with items := preq.items.map defaultPartType }
        = calculate_price s preq
      ∧ OrderCreateSerializer.validate s { creq with items := creq.items.map defaultPartType }
          = OrderCreateSerializer.validate s creq
      ∧ OrderViewSet.create s { creq with items := creq.items.map defaultPartType }
          = OrderViewSet.create s creq := by
  refine ⟨?_, ?_, ?_⟩
  · simp only [calculate_price, isEmpty_map_defaultPartType, previewItems_defaultPartType]
  · simp only [OrderCreateSerializer.validate, isEmpty_map_defaultPartType,
      validateItemsStock_defaultPartType]
  · simp only [OrderViewSet.create, OrderCreateSerializer.validate,
      isEmpty_map_defaultPartType, validateItemsStock_defaultPartType,
      buildOrderItems_defaultPartType]

/-- A selection that resolves throughout but contains an out-of-stock
option fails stock validation with the message naming some out-of-stock
selected option's problem and part type. -/
theorem validateItemsStock_out_of_stock (catalog : List RepairPrice) (mid : Nat)
    (items : List RequestItem)
    (hall : ∀ i ∈ items, ∃ rp, lookupRepairPrice catalog mid i.problem_id
        (i.part_type.getD .original) = some rp)
    (hsome : ∃ i ∈ items, ∃ rp, lookupRepairPrice catalog mid i.problem_id
        (i.part_type.getD .original) = some rp ∧ rp.in_stock = false) :
    ∃ i ∈ items, ∃ rp,
      lookupRepairPrice catalog mid i.problem_id (i.part_type.getD .original) = some rp
        ∧ rp.in_stock = false
        ∧ validateItemsStock catalog mid items
            = some (stockErrorMsg rp.problem_name (i.part_type.getD .original)) := by
  induction items with
  | nil =>
    obtain ⟨i, hi, _⟩ := hsome
    exact absurd hi (List.not_mem_nil i)
  | cons a rest ih =>
    obtain ⟨rpa, hrpa⟩ := hall a (List.mem_cons_self a rest)
    by_cases hstk : rpa.in_stock = true
    · have hsome' : ∃ i ∈ rest, ∃ rp, lookupRepairPrice catalog mid i.problem_id
          (i.part_type.getD .original) = some rp ∧ rp.in_stock = false := by
        obtain ⟨i, hi, rp, hrp, hf⟩ := hsome
        rcases List.mem_cons.mp hi with rfl | hmem
        · rw [hrpa] at hrp
          injection hrp with he
          rw [← he, hstk] at hf
          cases hf
        · exact ⟨i, hmem, rp, hrp, hf⟩
      have hall' : ∀ i ∈ rest, ∃ rp, lookupRepairPrice catalog mid i.problem_id
          (i.part_type.getD .original) = some rp :=
        fun i hi => hall i (List.mem_cons.mpr (Or.inr hi))
      obtain ⟨i, hi, rp, h1, h2, h3⟩ := ih hall' hsome'
      refine ⟨i, List.mem_cons.mpr (Or.inr hi), rp, h1, h2, ?_⟩
      simp only [validateItemsStock, hrpa]
      rw [if_pos hstk]
      exact h3
    · have hstk' : rpa.in_stock = false := by
        cases hb : rpa.in_stock
        · rfl
        · exact absurd hb hstk
      refine ⟨a, List.mem_cons_self a rest, rpa, hrpa, hstk', ?_⟩
      simp only [validateItemsStock, hrpa]
      rw [if_neg hstk]

/-- The preview loop succeeds on any selection that resolves throughout,
whatever the in-stock flags. -/
theorem previewItems_ok_of_resolve (catalog : List RepairPrice) (mid : Nat)
    (items : List RequestItem)
    (hall : ∀ i ∈ items, ∃ rp, lookupRepairPrice catalog mid i.problem_id
        (i.part_type.getD .original) = some rp) :
    ∃ bs, previewItems catalog mid items = .ok bs := by
  induction items with
  | nil => exact ⟨[], rfl⟩
  | cons a rest ih =>
    obtain ⟨rpa, hrpa⟩ := hall a (List.mem_cons_self a rest)
    obtain ⟨bs, hbs⟩ := ih fun i hi => hall i (List.mem_cons.mpr (Or.inr hi))
    cases hres : previewItems catalog mid (a :: rest) with
    | error e =>
      exfalso
      simp only [previewItems, hrpa, hbs] at hres
      cases hres
    | ok bs' => exact ⟨bs', rfl⟩

/-- Claim C6: stock enforcement is asymmetric, over arbitrary selections.
For any creation request whose selections all resolve to active options
and of which at least one resolved option is out of stock, order
validation fails with the message naming an out-of-stock selection's
problem and part type, order creation fails with that same error
persisting nothing, while the price preview prices the very same
selection successfully (under any discount override) without consulting
the in-stock flag. -/
theorem claim_C6 (s : Store) (req : CreateRequest) (pm : PhoneModel)
    (hm : findActiveModel s.models req.phone_model_id = some pm)
    (hne : req.items.isEmpty = false)
    (hp : ¬(req.website_discount_percentage.getD 0 < 0
        ∨ 100 < req.website_discount_percentage.getD 0))
    (ha : ¬(req.website_discount_amount.getD 0 < 0))
    (hall : ∀ i ∈ req.items, ∃ rp, lookupRepairPrice s.catalog req.phone_model_id
        i.problem_id (i.part_type.getD .original) = some rp)
    (hsome : ∃ i ∈ req.items, ∃ rp, lookupRepairPrice s.catalog req.phone_model_id
        i.problem_id (i.part_type.getD .original) = some rp ∧ rp.in_stock = false) :
    (∃ i ∈ req.items, ∃ rp,
        lookupRepairPrice s.catalog req.phone_model_id i.problem_id
            (i.part_type.getD .original) = some rp
          ∧ rp.in_stock = false
          ∧ OrderCreateSerializer.validate s req
              = some (stockErrorMsg rp.problem_name (i.part_type.getD .original))
          ∧ OrderViewSet.create s req
              = .error (stockErrorMsg rp.problem_name (i.part_type.getD .original)))
      ∧ ∀ op oa : Option ℚ, ∃ resp,
          calculate_price s { phone_model_id := req.phone_model_id, items := req.items
                              website_discount_percentage := op
                              website_discount_amount := oa } = .ok resp := by
  obtain ⟨i, hi, rp, h1, h2, h3⟩ :=
    validateItemsStock_out_of_stock s.catalog req.phone_model_id req.items hall hsome
  have hvd : OrderCreateSerializer.validate s req
      = some (stockErrorMsg rp.problem_name (i.part_type.getD .original)) := by
    simp only [OrderCreateSerializer.validate]
    rw [if_neg (by simp [hne]), if_neg hp, if_neg ha]
    simp only [hm]
    exact h3
  refine ⟨⟨i, hi, rp, h1, h2, hvd, by simp only [OrderViewSet.create, hvd]⟩, ?_⟩
  intro op oa
  obtain ⟨bs, hbs⟩ :=
    previewItems_ok_of_resolve s.catalog req.phone_model_id req.items hall
  cases hres : calculate_price s
      { phone_model_id := req.phone_model_id, items := req.items,
        website_discount_percentage := op, website_discount_amount := oa } with
  | error e =>
    simp only [calculate_price] at hres
    rw [if_neg (by simp [hne])] at hres
    simp only [hm, hbs] at hres
    cases hres
  | ok resp => exact ⟨resp, rfl⟩

/-- Witness for C6 at a concrete two-item selection whose second option
is out of stock: validation rejects, creation errors, preview succeeds. -/
theorem claim_C6_witness :
    OrderCreateSerializer.validate s6 req6 ≠ none
      ∧ (OrderViewSet.create s6 req6).toOption = none
      ∧ (calculate_price s6
          { phone_model_id := req6.phone_model_id, items := req6.items,
            website_discount_percentage := none,
            website_discount_amount := none }).toOption ≠ none := by
  have hall : ∀ i ∈ req6.items, ∃ rp, lookupRepairPrice s6.catalog req6.phone_model_id
      i.problem_id (i.part_type.getD .original) = some rp := by
    intro i hi
    simp only [req6, List.mem_cons, List.not_mem_nil, or_false] at hi
    rcases hi with rfl | rfl
    · exact ⟨rpEx, rfl⟩
    · exact ⟨rpOut3, rfl⟩
  have hsome : ∃ i ∈ req6.items, ∃ rp, lookupRepairPrice s6.catalog req6.phone_model_id
      i.problem_id (i.part_type.getD .original) = some rp ∧ rp.in_stock = false :=
    ⟨{ problem_id := 3, part_type := some .original }, by simp [req6], rpOut3, rfl, rfl⟩
  obtain ⟨⟨i, hi, rp, h1, h2, hv, hc⟩, hprev⟩ :=
    claim_C6 s6 req6 modelEx rfl rfl (by norm_num [req6]) (by norm_num [req6]) hall hsome
  obtain ⟨resp, hresp⟩ := hprev none none
  refine ⟨by rw [hv]; simp, by rw [hc]; rfl,
    by rw [hresp]; exact fun h => Option.noConfusion h⟩

/-- Evaluating order creation at the concrete store `s3`. -/
theorem create_s3 : OrderViewSet.create s3 creq3 = .ok s3' := by
  have hlook : lookupRepairPrice [rpEx] 1 2 .original = some rpEx := rfl
  have hm : findActiveModel [modelEx] 1 = some modelEx := rfl
  have hv : OrderCreateSerializer.validate s3 creq3 = none := by
    simp only [OrderCreateSerializer.validate, creq3, stockCreateReq, s3]
    rw [if_neg (by simp), if_neg (by norm_num), if_neg (by norm_num)]
    simp only [hm, validateItemsStock, Option.getD_some, hlook]
    simp [rpEx]
  have hb : buildOrderItems s3.catalog creq3.phone_model_id creq3.items
      = .ok ord3.order_items := by
    show buildOrderItems [rpEx] 1 [{ problem_id := 2, part_type := some .original }]
        = .ok ord3.order_items
    simp only [buildOrderItems, Option.getD_some, hlook]
    norm_num [ord3, rpEx, RepairPrice.final_price]
  unfold OrderViewSet.create
  rw [hv, hb]
  norm_num [Order.calculate_totals, OrderItem.item_discount, ord3, s3', s3, creq3,
    stockCreateReq, Store.mk.injEq, Order.mk.injEq]

/-- The claim as written is false at the concrete store `s3` (active 10%
site discount): the preview applies 10% although the caller supplied a
5% override, and order creation without an override applies 0% although
a site discount is active. -/
theorem claim_C3_counterexample :
    (∃ resp, calculate_price s3 preq3 = .ok resp ∧ resp.website_discount_percentage = 10)
      ∧ (10:ℚ) ≠ 5
      ∧ (∃ s', OrderViewSet.create s3 creq3 = .ok s'
          ∧ s'.orders.map (fun o => o.website_discount_percentage) = [0])
      ∧ (0:ℚ) ≠ 10 := by
  refine ⟨?_, by norm_num, ⟨s3', create_s3, by simp [s3', ord3]⟩, by norm_num⟩
  have hlook : lookupRepairPrice s3.catalog 1 2 .original = some rpEx := rfl
  have hm : findActiveModel s3.models 1 = some modelEx := rfl
  simp only [calculate_price, preq3]
  rw [if_neg (by simp)]
  simp only [hm, previewItems, Option.getD_some, hlook]
  exact ⟨_, rfl, rfl⟩

/-- Claim C3 (amended): the two call sites select the site-wide discount
by different rules.  The price preview ignores any caller-supplied
override (its result is independent of the override fields) and always
applies the currently-active SiteDiscount, zero when none is active;
order creation applies the caller-supplied override, defaulting to zero
when absent, and never consults the active SiteDiscount. -/
theorem claim_C3 (s : Store) (preq : PriceRequest) (p1 a1 p2 a2 : Option ℚ) :
    calculate_price s
        { preq with website_discount_percentage := p1, website_discount_amount := a1 }
        = calculate_price s
            { preq with website_discount_percentage := p2, website_discount_amount := a2 }
      ∧ (∀ resp, calculate_price s preq = .ok resp →
          resp.website_discount_percentage
              = ((activeWebsiteDiscount s.discounts).map fun d => d.percentage).getD 0
            ∧ resp.website_discount_amount
              = ((activeWebsiteDiscount s.discounts).map fun d => d.amount).getD 0)
      ∧ (∀ (creq : CreateRequest) (s' : Store), OrderViewSet.create s creq = .ok s' →
          ∃ ord, s'.orders = s.orders ++ [ord]
            ∧ ord.website_discount_percentage = creq.website_discount_percentage.getD 0
            ∧ ord.website_discount_amount = creq.website_discount_amount.getD 0) := by
  refine ⟨rfl, ?_, ?_⟩
  · intro resp h
    unfold calculate_price at h
    by_cases he : preq.items.isEmpty = true
    · rw [if_pos he] at h
      cases h
    · rw [if_neg he] at h
      cases hm : findActiveModel s.models preq.phone_model_id with
      | none => rw [hm] at h; cases h
      | some pm =>
        rw [hm] at h
        cases hp : previewItems s.catalog preq.phone_model_id preq.items with
        | error e => rw [hp] at h; cases h
        | ok bs =>
          rw [hp] at h
          injection h with h'
          rw [← h']
          cases activeWebsiteDiscount s.discounts <;> simp
  · intro creq s' h
    unfold OrderViewSet.create at h
    cases hv : OrderCreateSerializer.validate s creq with
    | some e => rw [hv] at h; cases h
    | none =>
      rw [hv] at h
      cases hb : buildOrderItems s.catalog creq.phone_model_id creq.items with
      | error e => rw [hb] at h; cases h
      | ok items =>
        rw [hb] at h
        injection h with h'
        subst h'
        exact ⟨_, rfl, rfl, rfl⟩

/-- Witness for C3 (amended) at the concrete store `s3`. -/
theorem claim_C3_witness :
    ∃ ord, s3'.orders = s3.orders ++ [ord]
      ∧ ord.website_discount_percentage = creq3.website_discount_percentage.getD 0
      ∧ ord.website_discount_amount = creq3.website_discount_amount.getD 0 :=
  (claim_C3 s3 preq3 none none none none).2.2 creq3 s3' create_s3

/-- Each snapshotted order item carries exactly the figures of the
catalog row its request item resolved to. -/
theorem buildOrderItems_sound (catalog : List RepairPrice) (mid : Nat)
    (items : List RequestItem) (its : List OrderItem)
    (h : buildOrderItems catalog mid items = .ok its) :
    ∀ it ∈ its, ∃ rp,
      lookupRepairPrice catalog mid it.problem_id it.part_type = some rp
        ∧ it.base_price = rp.base_price
        ∧ it.discount_percentage = rp.discount_percentage
        ∧ it.discount_amount = rp.discount_amount
        ∧ it.final_price = rp.final_price
        ∧ it.warranty_days = rp.warranty_days := by
  induction items generalizing its with
  | nil =>
    simp only [buildOrderItems] at h
    injection h with h'
    subst h'
    intro it hit
    exact absurd hit (List.not_mem_nil it)
  | cons i rest ih =>
    simp only [buildOrderItems] at h
    cases hlk : lookupRepairPrice catalog mid i.problem_id (i.part_type.getD .original) with
    | none => rw [hlk] at h; cases h
    | some rp =>
      rw [hlk] at h
      cases hrec : buildOrderItems catalog mid rest with
      | error e => rw [hrec] at h; cases h
      | ok its' =>
        rw [hrec] at h
        injection h with h'
        subst h'
        intro it hit
        rcases List.mem_cons.mp hit with heq | hmem
        · subst heq
          exact ⟨rp, hlk, rfl, rfl, rfl, rfl, rfl⟩
        · exact ih its' hrec it hmem

/-- Claim C4: an order created by `OrderViewSet.create` snapshots every
monetary field and the warranty length from the catalog row each
selection resolved to, and mutating the catalog afterwards leaves the
stored orders — line items and totals included — unchanged. -/
theorem claim_C4 (s : Store) (req : CreateRequest) (s' : Store)
    (h : OrderViewSet.create s req = .ok s') :
    (∀ f, (mutateCatalog s' f).orders = s'.orders)
      ∧ ∃ ord, s'.orders = s.orders ++ [ord]
          ∧ (∀ f, (mutateCatalog s' f).orders = s.orders ++ [ord])
          ∧ (∀ it ∈ ord.order_items, ∃ rp,
              lookupRepairPrice s.catalog req.phone_model_id it.problem_id it.part_type
                  = some rp
                ∧ it.base_price = rp.base_price
                ∧ it.discount_percentage = rp.discount_percentage
                ∧ it.discount_amount = rp.discount_amount
                ∧ it.final_price = rp.final_price
                ∧ it.warranty_days = rp.warranty_days) := by
  refine ⟨fun f => rfl, ?_⟩
  unfold OrderViewSet.create at h
  cases hv : OrderCreateSerializer.validate s req with
  | some e => rw [hv] at h; cases h
  | none =>
    rw [hv] at h
    cases hb : buildOrderItems s.catalog req.phone_model_id req.items with
    | error e => rw [hb] at h; cases h
    | ok items =>
      rw [hb] at h
      injection h with h'
      subst h'
      exact ⟨_, rfl, fun f => rfl, buildOrderItems_sound _ _ _ _ hb⟩

/-- Witness for C4: after creating an order against `s3`, rewriting every
catalog price leaves the stored orders untouched. -/
theorem claim_C4_witness :
    (mutateCatalog s3' fun rp =>
        { rp with base_price := 999, discount_percentage := 50 }).orders = s3'.orders :=
  (claim_C4 s3 creq3 s3' create_s3).1 _

/-- A final price is never negative, whatever the parameters. -/
theorem final_price_nonneg (r : RepairPrice) : 0 ≤ r.final_price := by
  simp only [RepairPrice.final_price]
  exact le_max_right _ _

/-- Summing per-line discounts distributes over the two sums. -/
theorem sum_map_sub (L : List LineBreakdown) :
    (L.map fun l => l.base_price - l.final_price).sum
      = (L.map fun l => l.base_price).sum - (L.map fun l => l.final_price).sum := by
  induction L with
  | nil => simp
  | cons a t ih =>
    simp only [List.map_cons, List.sum_cons, ih]
    ring

/-- The clamped total only depends on the lines through the sum of their
final prices. -/
theorem total_amount_eq (L : List LineBreakdown) (sp sa : ℚ) :
    (computeOrderTotals L sp sa).total_amount
      = max ((L.map fun l => l.final_price).sum
          - ((L.map fun l => l.final_price).sum * (sp / 100) + sa)) 0 := by
  simp only [computeOrderTotals]
  rw [sum_map_sub]
  congr 1
  ring

/-- Splitting the sum of final prices over a line in context. -/
theorem sum_final_lineContext (pre suf : List RepairPrice) (r : RepairPrice) :
    ((lineContext pre suf r).map fun l => l.final_price).sum
      = ((pre.map toLine).map fun l => l.final_price).sum + r.final_price
        + ((suf.map toLine).map fun l => l.final_price).sum := by
  simp only [lineContext, List.map_append, List.map_cons, List.sum_append, List.sum_cons, toLine]
  ring

/-- A sum of final prices is non-negative. -/
theorem sum_finals_nonneg (xs : List RepairPrice) :
    0 ≤ ((xs.map toLine).map fun l => l.final_price).sum := by
  apply List.sum_nonneg
  intro q hq
  simp only [List.map_map, List.mem_map] at hq
  obtain ⟨r, _, hr⟩ := hq
  rw [← hr]
  exact final_price_nonneg r

/-- The clamped total is monotone in the price after item discounts, for
a site percentage in [0,100]. -/
theorem clamp_total_mono_pai (x y sp sa : ℚ) (h : x ≤ y) (h0 : 0 ≤ sp) (h1 : sp ≤ 100) :
    max (x - (x * (sp / 100) + sa)) 0 ≤ max (y - (y * (sp / 100) + sa)) 0 := by
  apply max_le_max _ (le_refl 0)
  have key := mul_le_mul_of_nonneg_right h (show (0:ℚ) ≤ 1 - sp / 100 by linarith)
  nlinarith [key]

/-- The clamped total is antitone in the site percentage when the price
after item discounts is non-negative. -/
theorem clamp_total_mono_sp (x sp₁ sp₂ sa : ℚ) (hx : 0 ≤ x) (h : sp₁ ≤ sp₂) :
    max (x - (x * (sp₂ / 100) + sa)) 0 ≤ max (x - (x * (sp₁ / 100) + sa)) 0 := by
  apply max_le_max _ (le_refl 0)
  have key : x * (sp₁ / 100) ≤ x * (sp₂ / 100) :=
    mul_le_mul_of_nonneg_left (by linarith) hx
  linarith

/-- The clamped total is antitone in the fixed site amount. -/
theorem clamp_total_mono_sa (x sp sa₁ sa₂ : ℚ) (h : sa₁ ≤ sa₂) :
    max (x - (x * (sp / 100) + sa₂)) 0 ≤ max (x - (x * (sp / 100) + sa₁)) 0 :=
  max_le_max (by linarith) (le_refl 0)

/-- Claim C7: for a fixed set of line items and site discount, increasing
any single discount parameter — the line's percentage within [0,100], the
line's fixed amount, the site percentage within [0,100], or the site
fixed amount — never increases that line's final price nor the order's
total amount. -/
theorem claim_C7 (rp : RepairPrice) (p₂ a₂ : ℚ) (pre suf : List RepairPrice)
    (sp₁ sp₂ sa₁ sa₂ : ℚ)
    (hb : 0 ≤ rp.base_price)
    (hp0 : 0 ≤ rp.discount_percentage) (hp : rp.discount_percentage ≤ p₂) (hp100 : p₂ ≤ 100)
    (ha0 : 0 ≤ rp.discount_amount) (ha : rp.discount_amount ≤ a₂)
    (hsp0 : 0 ≤ sp₁) (hsp : sp₁ ≤ sp₂) (hsp100 : sp₂ ≤ 100)
    (hsa0 : 0 ≤ sa₁) (hsa : sa₁ ≤ sa₂) :
    ({ rp with discount_percentage := p₂ } : RepairPrice).final_price ≤ rp.final_price
      ∧ ({ rp with discount_amount := a₂ } : RepairPrice).final_price ≤ rp.final_price
      ∧ (computeOrderTotals (lineContext pre suf { rp with discount_percentage := p₂ })
            sp₁ sa₁).total_amount
          ≤ (computeOrderTotals (lineContext pre suf rp) sp₁ sa₁).total_amount
      ∧ (computeOrderTotals (lineContext pre suf { rp with discount_amount := a₂ })
            sp₁ sa₁).total_amount
          ≤ (computeOrderTotals (lineContext pre suf rp) sp₁ sa₁).total_amount
      ∧ (computeOrderTotals (lineContext pre suf rp) sp₂ sa₁).total_amount
          ≤ (computeOrderTotals (lineContext pre suf rp) sp₁ sa₁).total_amount
      ∧ (computeOrderTotals (lineContext pre suf rp) sp₁ sa₂).total_amount
          ≤ (computeOrderTotals (lineContext pre suf rp) sp₁ sa₁).total_amount := by
  have hf1 : rp.final_price
      = max (rp.base_price - rp.base_price * rp.discount_percentage / 100
          - rp.discount_amount) 0 := final_price_formula rp hp0
  have hf2 : ({ rp with discount_percentage := p₂ } : RepairPrice).final_price
      = max (rp.base_price - rp.base_price * p₂ / 100 - rp.discount_amount) 0 :=
    final_price_formula _ (le_trans hp0 hp)
  have hf3 : ({ rp with discount_amount := a₂ } : RepairPrice).final_price
      = max (rp.base_price - rp.base_price * rp.discount_percentage / 100 - a₂) 0 :=
    final_price_formula _ hp0
  have hmono1 : ({ rp with discount_percentage := p₂ } : RepairPrice).final_price
      ≤ rp.final_price := by
    rw [hf1, hf2]
    apply max_le_max _ (le_refl 0)
    have hmul : rp.base_price * rp.discount_percentage ≤ rp.base_price * p₂ :=
      mul_le_mul_of_nonneg_left hp hb
    linarith
  have hmono2 : ({ rp with discount_amount := a₂ } : RepairPrice).final_price
      ≤ rp.final_price := by
    rw [hf1, hf3]
    apply max_le_max _ (le_refl 0)
    linarith
  have htot : ∀ (r' : RepairPrice) (sp sa : ℚ),
      (computeOrderTotals (lineContext pre suf r') sp sa).total_amount
        = max ((((pre.map toLine).map fun l => l.final_price).sum + r'.final_price
              + ((suf.map toLine).map fun l => l.final_price).sum)
            - ((((pre.map toLine).map fun l => l.final_price).sum + r'.final_price
              + ((suf.map toLine).map fun l => l.final_price).sum) * (sp / 100) + sa)) 0 := by
    intro r' sp sa
    rw [total_amount_eq, sum_final_lineContext]
  have hpai0 : 0 ≤ ((pre.map toLine).map fun l => l.final_price).sum + rp.final_price
      + ((suf.map toLine).map fun l => l.final_price).sum := by
    have h1 := sum_finals_nonneg pre
    have h2 := sum_finals_nonneg suf
    have h3 := final_price_nonneg rp
    linarith
  refine ⟨hmono1, hmono2, ?_, ?_, ?_, ?_⟩
  · rw [htot, htot]
    exact clamp_total_mono_pai _ _ _ _ (by linarith) hsp0 (by linarith)
  · rw [htot, htot]
    exact clamp_total_mono_pai _ _ _ _ (by linarith) hsp0 (by linarith)
  · rw [htot, htot]
    exact clamp_total_mono_sp _ _ _ _ hpai0 hsp
  · rw [htot, htot]
    exact clamp_total_mono_sa _ _ _ _ hsa

/-- Witness for C7 at a concrete option and site discount. -/
theorem claim_C7_witness :
    ({ rpC7 with discount_percentage := 20 } : RepairPrice).final_price ≤ rpC7.final_price :=
  (claim_C7 rpC7 20 7 [] [] 5 10 0 1 (by norm_num [rpC7]) (by norm_num [rpC7])
    (by norm_num [rpC7]) (by norm_num) (by norm_num [rpC7]) (by norm_num [rpC7])
    (by norm_num) (by norm_num) (by norm_num) (by norm_num) (by norm_num)).1

/-- Storing into a slot never changes the group's key. -/
theorem problem_id_setSlot (g : ProblemGroup) (rp : RepairPrice) :
    (setSlot g rp).problem_id = g.problem_id := by
  cases h : rp.part_type <;> simp [setSlot, h]

/-- Left-biased choice keeps a present left argument. -/
theorem oor_some (a : RepairPrice) (b : Option RepairPrice) : oor (some a) b = some a := rfl

/-- Left-biased choice drops a null right argument. -/
theorem oor_none_right (a : Option RepairPrice) : oor a none = a := by
  cases a <;> rfl

/-- Left-biased choice is associative. -/
theorem oor_assoc (a b c : Option RepairPrice) : oor (oor a b) c = oor a (oor b c) := by
  cases a <;> rfl

/-- Processing one more option first shifts the group update by one
dict-insertion step. -/
theorem updGroup_cons (o : RepairPrice) (rest : List RepairPrice) (g : ProblemGroup) :
    updGroup (o :: rest) g
      = updGroup rest (if g.problem_id == o.problem_id then setSlot g o else g) := by
  by_cases h : g.problem_id = o.problem_id
  · rw [if_pos (by simp [h])]
    cases hpt : o.part_type
    · simp [updGroup, setSlot, hpt, lastMatch, h, oor_assoc, oor_some]
    · simp [updGroup, setSlot, hpt, lastMatch, h, oor_assoc, oor_some]
  · rw [if_neg (by simp [h])]
    have hne : ¬(o.problem_id = g.problem_id ∧ o.part_type = .original) := by
      rintro ⟨e, _⟩
      exact h e.symm
    have hne' : ¬(o.problem_id = g.problem_id ∧ o.part_type = .duplicate) := by
      rintro ⟨e, _⟩
      exact h e.symm
    simp [updGroup, lastMatch, hne, hne']

/-- A later option of a different problem does not alter a group. -/
theorem mkGroup_cons_ne (o : RepairPrice) (rest : List RepairPrice) (x : RepairPrice)
    (h : x.problem_id ≠ o.problem_id) :
    mkGroup (o :: rest) x = mkGroup rest x := by
  have hne : ¬(o.problem_id = x.problem_id ∧ o.part_type = .original) := by
    rintro ⟨e, _⟩
    exact h e.symm
  have hne' : ¬(o.problem_id = x.problem_id ∧ o.part_type = .duplicate) := by
    rintro ⟨e, _⟩
    exact h e.symm
  simp [mkGroup, lastMatch, hne, hne']

/-- Updating the freshly created group of `o` through the remaining
options yields exactly the group the whole input describes. -/
theorem updGroup_newGroup (o : RepairPrice) (rest : List RepairPrice) :
    updGroup rest (newGroup o) = mkGroup (o :: rest) o := by
  cases hpt : o.part_type
  · simp [updGroup, newGroup, setSlot, mkGroup, hpt, lastMatch, oor_none_right,
      oor_assoc, oor_some]
  · simp [updGroup, newGroup, setSlot, mkGroup, hpt, lastMatch, oor_none_right,
      oor_assoc, oor_some]

/-- The options whose arrival creates a group all have unseen keys. -/
theorem mem_firstOccurrences_not_seen {seen : List Nat} {l : List RepairPrice}
    {x : RepairPrice} (h : x ∈ firstOccurrences seen l) : x.problem_id ∉ seen := by
  induction l generalizing seen with
  | nil => simp [firstOccurrences] at h
  | cons o rest ih =>
    simp only [firstOccurrences] at h
    by_cases hm : o.problem_id ∈ seen
    · rw [if_pos hm] at h
      exact ih h
    · rw [if_neg hm] at h
      rcases List.mem_cons.mp h with rfl | hmem
      · exact hm
      · intro hx
        exact ih hmem (List.mem_append_left _ hx)

/-- Characterisation of the grouping loop: existing groups get their
slots overwritten by later matches, and each unseen problem's first
option appends a fresh group holding the last match per part type. -/
theorem foldl_insertOption_eq (opts : List RepairPrice) (gs : List ProblemGroup) :
    opts.foldl insertOption gs
      = gs.map (updGroup opts)
        ++ (firstOccurrences (gs.map fun g => g.problem_id) opts).map (mkGroup opts) := by
  induction opts generalizing gs with
  | nil =>
    simp only [List.foldl_nil, firstOccurrences, List.map_nil, List.append_nil]
    have h1 : gs.map (updGroup []) = gs := by
      induction gs with
      | nil => rfl
      | cons a t iht => simp only [List.map_cons, iht, show updGroup [] a = a from rfl]
    rw [h1]
  | cons o rest ih =>
    rw [List.foldl_cons, ih]
    by_cases hmem : o.problem_id ∈ gs.map fun g => g.problem_id
    · have hany : (gs.any fun g => g.problem_id == o.problem_id) = true := by
        obtain ⟨g, hg, he⟩ := List.mem_map.mp hmem
        rw [List.any_eq_true]
        exact ⟨g, hg, by simp [he]⟩
      have hins : insertOption gs o
          = gs.map fun g => if g.problem_id == o.problem_id then setSlot g o else g := by
        unfold insertOption
        rw [if_pos hany]
      rw [hins]
      have hkeys : ((gs.map fun g =>
            if g.problem_id == o.problem_id then setSlot g o else g).map fun g => g.problem_id)
          = gs.map fun g => g.problem_id := by
        rw [List.map_map]
        apply List.map_congr_left
        intro g _
        by_cases hg : g.problem_id = o.problem_id <;>
          simp [Function.comp, hg, problem_id_setSlot]
      rw [hkeys]
      have hfo : firstOccurrences (gs.map fun g => g.problem_id) (o :: rest)
          = firstOccurrences (gs.map fun g => g.problem_id) rest := by
        simp [firstOccurrences, hmem]
      rw [hfo]
      congr 1
      · rw [List.map_map]
        apply List.map_congr_left
        intro g _
        simp only [Function.comp]
        exact (updGroup_cons o rest g).symm
      · apply List.map_congr_left
        intro x hx
        have hxo : x.problem_id ≠ o.problem_id := by
          intro e
          exact mem_firstOccurrences_not_seen hx (e ▸ hmem)
        exact (mkGroup_cons_ne o rest x hxo).symm
    · have hany : (gs.any fun g => g.problem_id == o.problem_id) = false := by
        rw [List.any_eq_false]
        intro g hg
        simp only [beq_iff_eq]
        intro e
        exact hmem (List.mem_map.mpr ⟨g, hg, e⟩)
      have hins : insertOption gs o = gs ++ [newGroup o] := by
        unfold insertOption
        rw [if_neg (by simp [hany])]
      rw [hins]
      have hkeys : ((gs ++ [newGroup o]).map fun g => g.problem_id)
          = (gs.map fun g => g.problem_id) ++ [o.problem_id] := by
        simp [newGroup, problem_id_setSlot]
      rw [hkeys]
      have hfo : firstOccurrences (gs.map fun g => g.problem_id) (o :: rest)
          = o :: firstOccurrences ((gs.map fun g => g.problem_id) ++ [o.problem_id]) rest := by
        simp [firstOccurrences, hmem]
      rw [hfo]
      simp only [List.map_append, List.map_cons, List.map_nil, List.append_assoc,
        List.singleton_append]
      congr 1
      · apply List.map_congr_left
        intro g hg
        have hgo : g.problem_id ≠ o.problem_id := by
          intro e
          exact hmem (List.mem_map.mpr ⟨g, hg, e⟩)
        rw [updGroup_cons o rest g, if_neg (by simp [hgo])]
      · congr 1
        · exact updGroup_newGroup o rest
        · apply List.map_congr_left
          intro x hx
          have hxo : x.problem_id ≠ o.problem_id := by
            intro e
            exact mem_firstOccurrences_not_seen hx
              (List.mem_append_right _ (by simp [e]))
          exact (mkGroup_cons_ne o rest x hxo).symm

/-- The grouped listing is exactly one group per first occurrence. -/
theorem groupByProblem_eq (opts : List RepairPrice) :
    groupByProblem opts = (firstOccurrences [] opts).map (mkGroup opts) := by
  have h := foldl_insertOption_eq opts []
  simpa [groupByProblem] using h

/-- Keys of the first occurrences are the first appearances of the ids. -/
theorem map_problem_id_firstOccurrences (seen : List Nat) (l : List RepairPrice) :
    (firstOccurrences seen l).map (fun o => o.problem_id)
      = firstAppearance seen (l.map fun o => o.problem_id) := by
  induction l generalizing seen with
  | nil => rfl
  | cons o rest ih =>
    by_cases h : o.problem_id ∈ seen <;>
      simp [firstOccurrences, firstAppearance, h, ih]

/-- Membership in the first-appearance list. -/
theorem mem_firstAppearance_iff (x : Nat) (seen l : List Nat) :
    x ∈ firstAppearance seen l ↔ x ∈ l ∧ x ∉ seen := by
  induction l generalizing seen with
  | nil => simp [firstAppearance]
  | cons y rest ih =>
    by_cases h : y ∈ seen
    · rw [show firstAppearance seen (y :: rest) = firstAppearance seen rest from by
        simp [firstAppearance, h]]
      rw [ih]
      constructor
      · rintro ⟨hx, hn⟩
        exact ⟨List.mem_cons.mpr (Or.inr hx), hn⟩
      · rintro ⟨hx, hn⟩
        rcases List.mem_cons.mp hx with rfl | hx'
        · exact absurd h hn
        · exact ⟨hx', hn⟩
    · rw [show firstAppearance seen (y :: rest)
          = y :: firstAppearance (seen ++ [y]) rest from by simp [firstAppearance, h]]
      constructor
      · intro hx
        rcases List.mem_cons.mp hx with rfl | hx'
        · exact ⟨List.mem_cons_self _ _, h⟩
        · obtain ⟨h1, h2⟩ := (ih (seen ++ [y])).mp hx'
          exact ⟨List.mem_cons.mpr (Or.inr h1), fun hs => h2 (List.mem_append_left _ hs)⟩
      · rintro ⟨hx, hn⟩
        by_cases hxy : x = y
        · subst hxy
          exact List.mem_cons_self _ _
        · rcases List.mem_cons.mp hx with rfl | hx'
          · exact absurd rfl hxy
          · refine List.mem_cons.mpr (Or.inr ((ih (seen ++ [y])).mpr ⟨hx', ?_⟩))
            intro hs
            rcases List.mem_append.mp hs with hs | hs
            · exact hn hs
            · exact hxy (List.mem_singleton.mp hs)

/-- The first-appearance list never repeats an id. -/
theorem nodup_firstAppearance (seen l : List Nat) : (firstAppearance seen l).Nodup := by
  induction l generalizing seen with
  | nil => exact List.nodup_nil
  | cons y rest ih =>
    by_cases h : y ∈ seen
    · rw [show firstAppearance seen (y :: rest) = firstAppearance seen rest from by
        simp [firstAppearance, h]]
      exact ih seen
    · rw [show firstAppearance seen (y :: rest)
          = y :: firstAppearance (seen ++ [y]) rest from by simp [firstAppearance, h]]
      refine List.nodup_cons.mpr ⟨?_, ih _⟩
      intro hy
      exact ((mem_firstAppearance_iff _ _ _).mp hy).2
        (List.mem_append_right _ (List.mem_singleton.mpr rfl))

/-- A slot is null exactly when no option of the input matches its key. -/
theorem lastMatch_eq_none_iff (p : Nat) (pt : PartType) (l : List RepairPrice) :
    lastMatch p pt l = none ↔ ∀ o ∈ l, ¬(o.problem_id = p ∧ o.part_type = pt) := by
  induction l with
  | nil => simp [lastMatch]
  | cons o rest ih =>
    by_cases h : o.problem_id = p ∧ o.part_type = pt
    · rw [show lastMatch p pt (o :: rest) = oor (lastMatch p pt rest) (some o) from by
        simp [lastMatch, h]]
      constructor
      · intro he
        cases hl : lastMatch p pt rest <;> rw [hl] at he <;> simp [oor] at he
      · intro hall
        exact absurd h (hall o (List.mem_cons_self o rest))
    · rw [show lastMatch p pt (o :: rest) = lastMatch p pt rest from by simp [lastMatch, h]]
      rw [ih]
      constructor
      · intro hall o' ho'
        rcases List.mem_cons.mp ho' with rfl | hm
        · exact h
        · exact hall o' hm
      · intro hall o' hm
        exact hall o' (List.mem_cons.mpr (Or.inr hm))

/-- Under the catalog's uniqueness of (problem, part type), the slot
holds exactly the matching option. -/
theorem lastMatch_unique (p : Nat) (pt : PartType) {l : List RepairPrice}
    (hu : l.Pairwise fun a b => a.problem_id ≠ b.problem_id ∨ a.part_type ≠ b.part_type)
    {o : RepairPrice} (ho : o ∈ l) (hk : o.problem_id = p ∧ o.part_type = pt) :
    lastMatch p pt l = some o := by
  induction l with
  | nil => cases ho
  | cons h0 rest ih =>
    rw [List.pairwise_cons] at hu
    obtain ⟨hrel, hrest⟩ := hu
    rcases List.mem_cons.mp ho with rfl | hm
    · rw [show lastMatch p pt (o :: rest) = oor (lastMatch p pt rest) (some o) from by
        simp [lastMatch, hk]]
      have hnone : lastMatch p pt rest = none := by
        rw [lastMatch_eq_none_iff]
        rintro o' ho' ⟨e1, e2⟩
        rcases hrel o' ho' with hne | hne
        · exact hne (by rw [e1, hk.1])
        · exact hne (by rw [e2, hk.2])
      rw [hnone]
      rfl
    · have hhead : ¬(h0.problem_id = p ∧ h0.part_type = pt) := by
        rintro ⟨e1, e2⟩
        rcases hrel o hm with hne | hne
        · exact hne (by rw [e1, hk.1])
        · exact hne (by rw [e2, hk.2])
      rw [show lastMatch p pt (h0 :: rest) = lastMatch p pt rest from by
        simp [lastMatch, hhead]]
      exact ih hrest hm

/-- Claim C8: on a catalog whose (problem, part type) pairs are unique,
the grouped listing has exactly one group per distinct problem, keyed in
order of each problem's first appearance; each group carries two slots,
a slot is null exactly when that part type is absent from the input for
that problem, and a present part type's slot holds that very option. -/
theorem claim_C8 (opts : List RepairPrice)
    (hu : opts.Pairwise fun a b => a.problem_id ≠ b.problem_id ∨ a.part_type ≠ b.part_type) :
    ((groupByProblem opts).map fun g => g.problem_id)
        = firstAppearance [] (opts.map fun o => o.problem_id)
      ∧ ((groupByProblem opts).map fun g => g.problem_id).Nodup
      ∧ (∀ p, p ∈ (groupByProblem opts).map (fun g => g.problem_id)
          ↔ p ∈ opts.map fun o => o.problem_id)
      ∧ ∀ g ∈ groupByProblem opts,
          (g.original = none
              ↔ ∀ o ∈ opts, ¬(o.problem_id = g.problem_id ∧ o.part_type = .original))
            ∧ (g.duplicate = none
              ↔ ∀ o ∈ opts, ¬(o.problem_id = g.problem_id ∧ o.part_type = .duplicate))
            ∧ (∀ o ∈ opts, o.problem_id = g.problem_id → o.part_type = .original →
                g.original = some o)
            ∧ (∀ o ∈ opts, o.problem_id = g.problem_id → o.part_type = .duplicate →
                g.duplicate = some o) := by
  have hgrp := groupByProblem_eq opts
  have hkeys : ((groupByProblem opts).map fun g => g.problem_id)
      = firstAppearance [] (opts.map fun o => o.problem_id) := by
    rw [hgrp, List.map_map]
    rw [show ((fun g => g.problem_id) ∘ mkGroup opts) = fun o => o.problem_id from rfl]
    exact map_problem_id_firstOccurrences [] opts
  refine ⟨hkeys, ?_, ?_, ?_⟩
  · rw [hkeys]
    exact nodup_firstAppearance _ _
  · intro p
    rw [hkeys, mem_firstAppearance_iff]
    simp
  · intro g hg
    rw [hgrp] at hg
    obtain ⟨x, _, rfl⟩ := List.mem_map.mp hg
    refine ⟨?_, ?_, ?_, ?_⟩
    · exact lastMatch_eq_none_iff x.problem_id .original opts
    · exact lastMatch_eq_none_iff x.problem_id .duplicate opts
    · intro o ho he hpt
      exact lastMatch_unique _ _ hu ho ⟨he, hpt⟩
    · intro o ho he hpt
      exact lastMatch_unique _ _ hu ho ⟨he, hpt⟩

/-- Witness for C8 at a concrete three-option, two-problem catalog. -/
theorem claim_C8_witness :
    ((groupByProblem optsC8).map fun g => g.problem_id)
      = firstAppearance [] (optsC8.map fun o => o.problem_id) :=
  (claim_C8 optsC8 (by decide)).1

end SaveCo
